import Mathlib

/-
  Shallow embedding of the Modbus RTU/TCP proxy core
  (src/modbus_rtu/ESP32 Modbus Proxy/src/main.cpp and include/config.h).

  Global state of the firmware (buffer/bufferIndex, lastByteTime,
  frameInProgress, frameStartTime, waitingForTcpResponse,
  lastTcpRequestTime, messageCounter) is modelled as a record; the
  accumulation buffer `uint8_t buffer[BUFFER_SIZE]` together with its fill
  count `bufferIndex` is modelled as the list of its first `bufferIndex`
  bytes, since emission and broadcast only ever use `buffer[0..bufferIndex)`.
  `millis()` is modelled as a `Nat` timestamp passed into each entry point:
  within one loop tick all `millis()` calls return (up to a few ms) the same
  value, so one `now` per tick; timestamps recorded in the state were taken
  at earlier ticks, so `unsigned long` subtraction `millis() - t` coincides
  with truncated `Nat` subtraction `now - t`.
-/

namespace ModbusProxy

/-- config.h line 11: `#define MAX_CLIENTS 4`. -/
def MAX_CLIENTS : Nat := 4

/-- config.h line 25: `#define BUFFER_SIZE 256`. -/
def BUFFER_SIZE : Nat := 256

/-- config.h line 23: `#define MODBUS_TIMEOUT_MS 2` (inter-frame silence). -/
def MODBUS_TIMEOUT_MS : Nat := 2

/-- main.cpp line 45: `const unsigned long MAX_FRAME_TIME = 500`. -/
def MAX_FRAME_TIME : Nat := 500

/-- The literal `5000` ms response window of main.cpp lines 339 and 374. -/
def RESPONSE_WINDOW : Nat := 5000

/-- The firmware's mutable globals relevant to the core (main.cpp lines 38-50). -/
structure ProxyState where
  buffer : List Nat
  lastByteTime : Nat
  frameInProgress : Bool
  frameStartTime : Nat
  waitingForTcpResponse : Bool
  lastTcpRequestTime : Nat
  messageCounter : Nat
deriving Repr, DecidableEq

/-- State after boot: empty buffer, no frame in progress, nothing pending. -/
def initialState : ProxyState :=
  { buffer := []
    lastByteTime := 0
    frameInProgress := false
    frameStartTime := 0
    waitingForTcpResponse := false
    lastTcpRequestTime := 0
    messageCounter := 0 }

/-- One slot of `WiFiClient clients[MAX_CLIENTS]` (main.cpp line 33):
`occupied` models the truthiness of the `WiFiClient` object, `connected`
models `.connected()`, `received` records every byte written to the peer,
`ident` is the peer's identity (IP:port). -/
structure ClientSlot where
  occupied : Bool
  connected : Bool
  received : List Nat
  ident : Nat
deriving Repr, DecidableEq

/-- A default-constructed `WiFiClient()` slot (main.cpp line 316). -/
def emptySlot : ClientSlot :=
  { occupied := false, connected := false, received := [], ident := 0 }

/-- How a completed frame is handled by `processRTUResponse`: as a reply to
the pending TCP request, or as an unsolicited heartbeat/status message. -/
inductive Classification where
  | RESPONSE : Classification
  | UNSOLICITED : Classification
deriving Repr, DecidableEq

/-- One iteration of the `while (Serial.available())` loop of
`handleModbusRTU` (main.cpp lines 323-346): the byte is appended and the
timing metadata updated only when `bufferIndex < BUFFER_SIZE`; a first byte
also starts a frame and bumps the message counter. -/
def feedByte (s : ProxyState) (b : Nat) (now : Nat) : ProxyState :=
  if s.buffer.length < BUFFER_SIZE then
    let s1 := { s with buffer := s.buffer ++ [b], lastByteTime := now }
    if s1.frameInProgress then s1
    else { s1 with frameInProgress := true, frameStartTime := now,
                   messageCounter := s1.messageCounter + 1 }
  else s

/-- Draining all serial bytes available in one tick (main.cpp line 323). -/
def feedBytes (s : ProxyState) (bytes : List Nat) (now : Nat) : ProxyState :=
  bytes.foldl (fun st b => feedByte st b now) s

/-- The broadcast loops of `processRTUResponse` (main.cpp lines 386-391 and
411-424): write the frame's bytes to every slot that is occupied and
connected, leave every other slot untouched. -/
def broadcastFrame (clients : List ClientSlot) (frame : List Nat) :
    List ClientSlot :=
  clients.map fun c =>
    if c.occupied && c.connected then
      { c with received := c.received ++ frame }
    else c

/-- `processRTUResponse` (main.cpp lines 369-444): when the buffer is
non-empty the frame is classified by
`isHeartbeat = !waitingForTcpResponse || (millis() - lastTcpRequestTime) > 5000`
and broadcast to all connected clients; only the `RESPONSE` branch clears
`waitingForTcpResponse` (line 437); lines 442-443 always reset
`frameInProgress` and `bufferIndex`. Returns the new state, the new client
slots and the emitted frame with its classification. -/
def processRTUResponse (s : ProxyState) (clients : List ClientSlot)
    (now : Nat) : ProxyState × List ClientSlot × Option (List Nat × Classification) :=
  if 0 < s.buffer.length then
    if s.waitingForTcpResponse = false ∨
        RESPONSE_WINDOW < now - s.lastTcpRequestTime then
      ({ s with frameInProgress := false, buffer := [] },
       broadcastFrame clients s.buffer,
       some (s.buffer, Classification.UNSOLICITED))
    else
      ({ s with frameInProgress := false, buffer := [],
                waitingForTcpResponse := false },
       broadcastFrame clients s.buffer,
       some (s.buffer, Classification.RESPONSE))
  else
    ({ s with frameInProgress := false, buffer := [] }, clients, none)

/-- Everything one call of `handleModbusRTU` produces besides the state. -/
structure TickResult where
  state : ProxyState
  clients : List ClientSlot
  emitted : Option (List Nat × Classification)
  missed : Bool
deriving Repr, DecidableEq

/-- `handleModbusRTU` (main.cpp lines 321-367): drain the serial bytes
available this tick, then emit the frame when one is in progress, non-empty,
and either silent for `MODBUS_TIMEOUT_MS` or older than `MAX_FRAME_TIME`
(lines 349-356); finally the missed-response check of lines 358-366 fires
when a TCP response is awaited, a frame is marked in progress with an empty
buffer, and more than `MAX_FRAME_TIME` has elapsed since the frame start. -/
def handleModbusRTU (s : ProxyState) (clients : List ClientSlot)
    (incoming : List Nat) (now : Nat) : TickResult :=
  let s1 := feedBytes s incoming now
  let step2 :=
    if s1.frameInProgress ∧ 0 < s1.buffer.length ∧
        (MODBUS_TIMEOUT_MS ≤ now - s1.lastByteTime ∨
          MAX_FRAME_TIME ≤ now - s1.frameStartTime) then
      processRTUResponse s1 clients now
    else (s1, clients, none)
  let s2 := step2.1
  if s2.waitingForTcpResponse ∧ s2.frameInProgress ∧
      MAX_FRAME_TIME < now - s2.frameStartTime ∧ s2.buffer.length = 0 then
    { state := { s2 with frameInProgress := false, buffer := [],
                         waitingForTcpResponse := false }
      clients := step2.2.1
      emitted := step2.2.2
      missed := true }
  else
    { state := s2, clients := step2.2.1, emitted := step2.2.2, missed := false }

/-- The accept loop of `handleWiFiClients` (main.cpp lines 262-276): a new
connection takes the first slot that is unoccupied or no longer connected;
when every slot is occupied and connected the loop falls through and the
connection is never stored. Returns the slots and whether registration
succeeded. -/
def acceptClient : List ClientSlot → ClientSlot → List ClientSlot × Bool
  | [], _ => ([], false)
  | c :: rest, newC =>
    if !c.occupied || !c.connected then (newC :: rest, true)
    else
      let r := acceptClient rest newC
      (c :: r.1, r.2)

/-- The per-client request handling of `handleWiFiClients` (main.cpp lines
279-310): read `min(available, BUFFER_SIZE)` bytes as one unit, write them
verbatim to the serial bus, and when anything was read set
`frameInProgress`, restart `frameStartTime`, zero `bufferIndex`, and arm
`waitingForTcpResponse`/`lastTcpRequestTime` with the current time.
Returns the new state and the bytes written to `Serial`. -/
def processClientRequest (s : ProxyState) (avail : List Nat) (now : Nat) :
    ProxyState × List Nat :=
  let bytesToRead := min avail.length BUFFER_SIZE
  let tcpBuffer := avail.take bytesToRead
  if 0 < tcpBuffer.length then
    ({ s with frameInProgress := true, frameStartTime := now, buffer := [],
              waitingForTcpResponse := true, lastTcpRequestTime := now },
     tcpBuffer)
  else (s, [])

/-- The disconnect pass of `handleWiFiClients` (main.cpp lines 312-317): a
slot that is occupied but no longer connected is stopped and replaced by a
fresh `WiFiClient()`. -/
def pruneClients (clients : List ClientSlot) : List ClientSlot :=
  clients.map fun c =>
    if c.occupied && !c.connected then emptySlot else c

/-- Running `handleModbusRTU` over a sequence of ticks with no serial input
from an accumulator of state and missed-response event count. -/
def runIdleTicksFrom (acc : ProxyState × Nat) (times : List Nat) :
    ProxyState × Nat :=
  times.foldl
    (fun a t =>
      let r := handleModbusRTU a.1 [] [] t
      (r.state, a.2 + (if r.missed then 1 else 0)))
    acc

/-- Running `handleModbusRTU` over a sequence of ticks with no serial input,
counting how many missed-response events fire. -/
def runIdleTicks (s : ProxyState) (times : List Nat) : ProxyState × Nat :=
  runIdleTicksFrom (s, 0) times

/-! Helper lemmas about the byte-feeding loop. -/

theorem feedByte_buffer (s : ProxyState) (b now : Nat) :
    (feedByte s b now).buffer =
      if s.buffer.length < BUFFER_SIZE then s.buffer ++ [b] else s.buffer := by
  simp only [feedByte]
  split
  · split <;> rfl
  · rfl

theorem feedBytes_nil (s : ProxyState) (now : Nat) :
    feedBytes s [] now = s := rfl

theorem feedBytes_cons (s : ProxyState) (b : Nat) (rest : List Nat)
    (now : Nat) :
    feedBytes s (b :: rest) now = feedBytes (feedByte s b now) rest now := rfl

theorem feedBytes_buffer (s : ProxyState) (l : List Nat) (now : Nat) :
    (feedBytes s l now).buffer =
      s.buffer ++ l.take (BUFFER_SIZE - s.buffer.length) := by
  induction l generalizing s with
  | nil => simp [feedBytes]
  | cons b rest ih =>
    rw [feedBytes_cons, ih, feedByte_buffer]
    by_cases h : s.buffer.length < BUFFER_SIZE
    · rw [if_pos h]
      have h1 : BUFFER_SIZE - s.buffer.length =
          (BUFFER_SIZE - (s.buffer ++ [b]).length) + 1 := by
        simp only [List.length_append, List.length_cons, List.length_nil]
        omega
      rw [h1, List.take_succ_cons, List.append_assoc, List.singleton_append]
    · rw [if_neg h]
      have h0 : BUFFER_SIZE - s.buffer.length = 0 := by omega
      rw [h0]
      simp

/-- A state whose accumulation buffer is exactly at capacity. -/
def fullState : ProxyState :=
  { buffer := List.replicate BUFFER_SIZE 0
    lastByteTime := 42
    frameInProgress := true
    frameStartTime := 7
    waitingForTcpResponse := false
    lastTcpRequestTime := 0
    messageCounter := 1 }

/-- Claim C9: for every sequence of bytes fed to the assembler, the buffer
length never exceeds the fixed capacity BUFFER_SIZE = 256 (so every write
into the accumulation buffer is in bounds), and once at capacity a fed byte
is dropped rather than stored. -/
theorem buffer_never_exceeds_capacity (s : ProxyState) (bytes : List Nat)
    (now : Nat) (h : s.buffer.length ≤ BUFFER_SIZE) :
    (feedBytes s bytes now).buffer.length ≤ BUFFER_SIZE ∧
    (∀ b t, BUFFER_SIZE ≤ s.buffer.length → (feedByte s b t).buffer = s.buffer) := by
  constructor
  · rw [feedBytes_buffer, List.length_append, List.length_take]
    omega
  · intro b t hfull
    rw [feedByte_buffer, if_neg (by omega)]

/-- Witness for C9 at a concrete input: 300 bytes fed to the empty assembler
leave the buffer within the 256-byte capacity. -/
theorem buffer_never_exceeds_capacity_witness :
    initialState.buffer.length ≤ BUFFER_SIZE ∧
    (feedBytes initialState (List.replicate 300 7) 3).buffer.length ≤ BUFFER_SIZE :=
  ⟨by decide,
   (buffer_never_exceeds_capacity initialState (List.replicate 300 7) 3 (by decide)).1⟩

/-- Claim C5 counterexample: with the buffer at capacity, feeding a byte at
time 1000 leaves the whole state unchanged — in particular the last-byte
time stays 42 and is NOT updated to 1000, contradicting the claim that the
frame's metadata still accumulates on overflow (main.cpp lines 329-345: the
metadata update sits inside `if (bufferIndex < BUFFER_SIZE)`). -/
theorem overflow_metadata_counterexample :
    fullState.buffer.length = BUFFER_SIZE ∧
    feedByte fullState 9 1000 = fullState ∧
    (feedByte fullState 9 1000).lastByteTime = 42 ∧
    (feedByte fullState 9 1000).lastByteTime ≠ 1000 := by
  have hlen : fullState.buffer.length = BUFFER_SIZE := by
    simp [fullState]
  have heq : feedByte fullState 9 1000 = fullState := by
    unfold feedByte
    rw [if_neg (by omega)]
  refine ⟨hlen, heq, ?_, ?_⟩ <;> rw [heq]
  · rfl
  · decide

/-- Claim C5 (amended): a byte fed while the buffer is at capacity is
dropped entirely — the state, including the last-byte time, is unchanged,
there is no truncated flag, and feeding is a total function (no crash). -/
theorem overflow_drops_byte_entirely (s : ProxyState) (b now : Nat)
    (h : BUFFER_SIZE ≤ s.buffer.length) : feedByte s b now = s := by
  unfold feedByte
  rw [if_neg (by omega)]

/-- Witness for the amended C5 at a concrete input. -/
theorem overflow_drops_byte_entirely_witness :
    BUFFER_SIZE ≤ fullState.buffer.length ∧
    feedByte fullState 11 2000 = fullState := by
  have h : BUFFER_SIZE ≤ fullState.buffer.length := by
    simp [fullState]
  exact ⟨h, overflow_drops_byte_entirely fullState 11 2000 h⟩

/-- Claim C10: forwarding a newly arrived TCP client request while a serial
frame is partially assembled resets the buffer to empty and restarts the
frame start time, so whatever the assembler buffers afterwards consists only
of bytes fed after the forward — the discarded partial frame's bytes are
never part of an emitted frame. -/
theorem forward_discards_partial_frame (s : ProxyState) (avail : List Nat)
    (now : Nat) (hp : s.frameInProgress = true) (hb : s.buffer ≠ [])
    (ha : avail ≠ []) :
    (processClientRequest s avail now).1.buffer = [] ∧
    (processClientRequest s avail now).1.frameStartTime = now ∧
    ∀ l t, (feedBytes (processClientRequest s avail now).1 l t).buffer =
      l.take BUFFER_SIZE := by
  have hpos : 0 < (avail.take (min avail.length BUFFER_SIZE)).length := by
    rw [List.length_take]
    have := List.length_pos.mpr ha
    simp only [BUFFER_SIZE] at *
    omega
  simp only [processClientRequest]
  rw [if_pos hpos]
  refine ⟨rfl, rfl, fun l t => ?_⟩
  rw [feedBytes_buffer]
  simp

/-- Witness for C10 at a concrete input: a one-byte partial frame is
discarded by forwarding the request `[9]`, and feeding `[7, 8]` afterwards
buffers exactly `[7, 8]`. -/
theorem forward_discards_partial_frame_witness :
    (⟨[5], 3, true, 1, false, 0, 1⟩ : ProxyState).frameInProgress = true ∧
    (processClientRequest ⟨[5], 3, true, 1, false, 0, 1⟩ [9] 100).1.buffer = [] ∧
    (processClientRequest ⟨[5], 3, true, 1, false, 0, 1⟩ [9] 100).1.frameStartTime = 100 ∧
    (feedBytes (processClientRequest ⟨[5], 3, true, 1, false, 0, 1⟩ [9] 100).1
      [7, 8] 200).buffer = [7, 8] := by
  have h := forward_discards_partial_frame ⟨[5], 3, true, 1, false, 0, 1⟩ [9] 100
    rfl (by decide) (by decide)
  refine ⟨rfl, h.1, h.2.1, ?_⟩
  rw [h.2.2]
  decide

/-- Claim C8 counterexample: a client with 257 bytes available has only
`min(257, BUFFER_SIZE) = 256` of them read and forwarded in the tick
(main.cpp line 285), refuting "all of its currently available bytes are
read as one unit (regardless of how many are available)". -/
theorem forward_truncation_counterexample :
    (List.replicate 257 1).length = 257 ∧
    ((processClientRequest initialState (List.replicate 257 1) 0).2).length = 256 ∧
    (processClientRequest initialState (List.replicate 257 1) 0).2 ≠
      List.replicate 257 1 := by
  have hpos : 0 < ((List.replicate 257 1).take
      (min (List.replicate 257 1).length BUFFER_SIZE)).length := by
    rw [List.length_take, List.length_replicate]
    simp only [BUFFER_SIZE]
    omega
  have h2 : (processClientRequest initialState (List.replicate 257 1) 0).2 =
      (List.replicate 257 1).take (min (List.replicate 257 1).length BUFFER_SIZE) := by
    simp only [processClientRequest]
    rw [if_pos hpos]
  have hlen : ((processClientRequest initialState (List.replicate 257 1) 0).2).length = 256 := by
    rw [h2, List.length_take, List.length_replicate]
    simp only [BUFFER_SIZE]
    omega
  refine ⟨by rw [List.length_replicate], hlen, fun heq => ?_⟩
  have hc := congrArg List.length heq
  rw [hlen, List.length_replicate] at hc
  omega

/-- Claim C8 (amended): when a registered client has inbound bytes,
`min(available, BUFFER_SIZE)` of them are read as one unit — all of them
whenever at most BUFFER_SIZE are available — written verbatim (same bytes,
same order) to the serial bus, and the correlation tracker is armed with
the current time. -/
theorem forward_request_verbatim (s : ProxyState) (avail : List Nat)
    (now : Nat) (h : avail ≠ []) :
    (processClientRequest s avail now).2 = avail.take BUFFER_SIZE ∧
    (avail.length ≤ BUFFER_SIZE → (processClientRequest s avail now).2 = avail) ∧
    (processClientRequest s avail now).1.waitingForTcpResponse = true ∧
    (processClientRequest s avail now).1.lastTcpRequestTime = now := by
  have hpos : 0 < (avail.take (min avail.length BUFFER_SIZE)).length := by
    rw [List.length_take]
    have := List.length_pos.mpr h
    simp only [BUFFER_SIZE] at *
    omega
  simp only [processClientRequest]
  rw [if_pos hpos]
  have htake : avail.take (min avail.length BUFFER_SIZE) = avail.take BUFFER_SIZE := by
    rcases Nat.le_total avail.length BUFFER_SIZE with hle | hle
    · rw [Nat.min_eq_left hle, List.take_length, List.take_of_length_le hle]
    · rw [Nat.min_eq_right hle]
  refine ⟨htake, fun hle => ?_, rfl, rfl⟩
  rw [htake, List.take_of_length_le hle]

/-- Witness for the amended C8 at a concrete input: the standard 8-byte LUX
request is forwarded verbatim and the tracker armed at time 77. -/
theorem forward_request_verbatim_witness :
    (processClientRequest initialState [1, 4, 0, 0, 0, 1, 49, 202] 77).2 =
      [1, 4, 0, 0, 0, 1, 49, 202] ∧
    (processClientRequest initialState [1, 4, 0, 0, 0, 1, 49, 202] 77).1.waitingForTcpResponse = true ∧
    (processClientRequest initialState [1, 4, 0, 0, 0, 1, 49, 202] 77).1.lastTcpRequestTime = 77 := by
  have h := forward_request_verbatim initialState [1, 4, 0, 0, 0, 1, 49, 202] 77 (by decide)
  exact ⟨h.2.1 (by decide), h.2.2.1, h.2.2.2⟩

/-- Claim C7: with all MAX_CLIENTS = 4 slots occupied by live connections,
a further registration attempt fails — the new connection is never stored —
and none of the existing slots are modified. -/
theorem registry_full_rejects (clients : List ClientSlot) (newC : ClientSlot)
    (hlen : clients.length = MAX_CLIENTS)
    (hfull : ∀ c ∈ clients, c.occupied = true ∧ c.connected = true) :
    acceptClient clients newC = (clients, false) := by
  clear hlen
  induction clients with
  | nil => rfl
  | cons c rest ih =>
    have hc := hfull c (List.mem_cons_self c rest)
    simp only [acceptClient]
    rw [if_neg (by simp [hc.1, hc.2])]
    rw [ih (fun x hx => hfull x (List.mem_cons_of_mem c hx))]

/-- Witness for C7: four live slots, a fifth connection is rejected and
slots 0-3 keep their exact contents. -/
theorem registry_full_rejects_witness :
    ([(⟨true, true, [1], 1⟩ : ClientSlot), ⟨true, true, [2], 2⟩,
      ⟨true, true, [3], 3⟩, ⟨true, true, [4], 4⟩].length = MAX_CLIENTS) ∧
    acceptClient
      [⟨true, true, [1], 1⟩, ⟨true, true, [2], 2⟩,
       ⟨true, true, [3], 3⟩, ⟨true, true, [4], 4⟩] ⟨true, true, [], 5⟩ =
      ([⟨true, true, [1], 1⟩, ⟨true, true, [2], 2⟩,
        ⟨true, true, [3], 3⟩, ⟨true, true, [4], 4⟩], false) :=
  ⟨rfl, registry_full_rejects _ _ rfl (by decide)⟩

/-- Claim C2: a frame completed at time T+w while a request forwarded at T
is pending classifies as RESPONSE and clears the pending marker when
w < RESPONSE_WINDOW, and as UNSOLICITED when w > RESPONSE_WINDOW; a frame
completed with no pending request always classifies as UNSOLICITED. -/
theorem classify_by_response_window (s : ProxyState)
    (clients : List ClientSlot) (T w : Nat) (hb : s.buffer ≠ []) :
    (s.waitingForTcpResponse = true → s.lastTcpRequestTime = T →
      (w < RESPONSE_WINDOW →
        (processRTUResponse s clients (T + w)).2.2 =
          some (s.buffer, Classification.RESPONSE) ∧
        (processRTUResponse s clients (T + w)).1.waitingForTcpResponse = false) ∧
      (RESPONSE_WINDOW < w →
        (processRTUResponse s clients (T + w)).2.2 =
          some (s.buffer, Classification.UNSOLICITED))) ∧
    (s.waitingForTcpResponse = false →
      ∀ now, (processRTUResponse s clients now).2.2 =
        some (s.buffer, Classification.UNSOLICITED)) := by
  have hpos : 0 < s.buffer.length := List.length_pos.mpr hb
  refine ⟨fun hw hT => ⟨fun hlt => ?_, fun hgt => ?_⟩, fun hw now => ?_⟩
  · have hcond : ¬(s.waitingForTcpResponse = false ∨
        RESPONSE_WINDOW < T + w - s.lastTcpRequestTime) := by
      rw [hw, hT]
      push_neg
      exact ⟨fun hfalse => by simp at hfalse, by omega⟩
    simp only [processRTUResponse, if_pos hpos, if_neg hcond]
    exact ⟨by trivial, by trivial⟩
  · have hcond : s.waitingForTcpResponse = false ∨
        RESPONSE_WINDOW < T + w - s.lastTcpRequestTime := by
      rw [hT]
      right
      omega
    simp only [processRTUResponse, if_pos hpos, if_pos hcond]
  · have hcond : s.waitingForTcpResponse = false ∨
        RESPONSE_WINDOW < now - s.lastTcpRequestTime := Or.inl hw
    simp only [processRTUResponse, if_pos hpos, if_pos hcond]

/-- Witness for C2 at a concrete input: a two-byte frame completing 100 ms
after the request was forwarded (window 5000 ms) classifies as RESPONSE and
clears the pending marker. -/
theorem classify_by_response_window_witness :
    (processRTUResponse ⟨[2, 3], 10, true, 8, true, 0, 1⟩ [] (0 + 100)).2.2 =
      some ([2, 3], Classification.RESPONSE) ∧
    (processRTUResponse ⟨[2, 3], 10, true, 8, true, 0, 1⟩ [] (0 + 100)).1.waitingForTcpResponse = false := by
  have h := (classify_by_response_window ⟨[2, 3], 10, true, 8, true, 0, 1⟩ [] 0 100
    (by decide)).1 rfl rfl
  exact h.1 (by decide)

/-- A state holding a completed one-byte frame while a request forwarded at
time 0 is still pending. -/
def lateState : ProxyState :=
  { buffer := [1]
    lastByteTime := 5900
    frameInProgress := true
    frameStartTime := 5800
    waitingForTcpResponse := true
    lastTcpRequestTime := 0
    messageCounter := 1 }

/-- Claim C4 counterexample: a frame completing at time 6000 while a request
forwarded at time 0 is pending (window 5000 elapsed) is classified
UNSOLICITED as claimed, but `waitingForTcpResponse` is still `true`
afterwards — only the RESPONSE branch of `processRTUResponse` clears it
(main.cpp line 437) — so the tracker does NOT return to IDLE. -/
theorem late_frame_keeps_pending_counterexample :
    RESPONSE_WINDOW < 6000 - lateState.lastTcpRequestTime ∧
    (processRTUResponse lateState [] 6000).2.2 =
      some ([1], Classification.UNSOLICITED) ∧
    (processRTUResponse lateState [] 6000).1.waitingForTcpResponse = true := by
  decide

/-- Claim C4 (amended): when a frame completes while a request is pending
and the response window has elapsed, the frame is classified UNSOLICITED
and is not consumed as a match, and the assembler state is reset — but the
pending-request marker is NOT cleared: the tracker stays armed. -/
theorem late_frame_unsolicited_keeps_pending (s : ProxyState)
    (clients : List ClientSlot) (now : Nat)
    (hw : s.waitingForTcpResponse = true) (hb : s.buffer ≠ [])
    (hl : RESPONSE_WINDOW < now - s.lastTcpRequestTime) :
    (processRTUResponse s clients now).2.2 =
      some (s.buffer, Classification.UNSOLICITED) ∧
    (processRTUResponse s clients now).1.waitingForTcpResponse = true ∧
    (processRTUResponse s clients now).1.frameInProgress = false ∧
    (processRTUResponse s clients now).1.buffer = [] := by
  have hpos : 0 < s.buffer.length := List.length_pos.mpr hb
  simp only [processRTUResponse, if_pos hpos, if_pos (Or.inr hl)]
  exact ⟨by trivial, hw, by trivial, by trivial⟩

/-- Witness for the amended C4 at a concrete input. -/
theorem late_frame_unsolicited_keeps_pending_witness :
    (⟨[7, 7], 8000, true, 7900, true, 100, 2⟩ : ProxyState).waitingForTcpResponse = true ∧
    (processRTUResponse ⟨[7, 7], 8000, true, 7900, true, 100, 2⟩ [] 9000).2.2 =
      some ([7, 7], Classification.UNSOLICITED) ∧
    (processRTUResponse ⟨[7, 7], 8000, true, 7900, true, 100, 2⟩ [] 9000).1.waitingForTcpResponse = true := by
  have h := late_frame_unsolicited_keeps_pending ⟨[7, 7], 8000, true, 7900, true, 100, 2⟩
    [] 9000 rfl (by decide) (by decide)
  exact ⟨rfl, h.1, h.2.1⟩

/-- Claim C6: every completed frame — whichever way it classifies — is
written, bytes in order, to all and only the slots whose connections are
live; a slot whose peer disconnected before the broadcast receives nothing
and the subsequent disconnect pass frees it. -/
theorem broadcast_all_and_only_live (s : ProxyState)
    (clients : List ClientSlot) (now : Nat) (hb : s.buffer ≠ []) :
    (processRTUResponse s clients now).2.1 =
      clients.map (fun c =>
        if c.occupied && c.connected then
          { c with received := c.received ++ s.buffer }
        else c) ∧
    pruneClients ((processRTUResponse s clients now).2.1) =
      clients.map (fun c =>
        if c.occupied && c.connected then
          { c with received := c.received ++ s.buffer }
        else if c.occupied && !c.connected then emptySlot else c) := by
  have hpos : 0 < s.buffer.length := List.length_pos.mpr hb
  have hcl : (processRTUResponse s clients now).2.1 =
      broadcastFrame clients s.buffer := by
    simp only [processRTUResponse, if_pos hpos]
    split <;> rfl
  refine ⟨hcl, ?_⟩
  rw [hcl]
  unfold pruneClients broadcastFrame
  rw [List.map_map]
  congr 1
  funext c
  obtain ⟨occ, conn, recv, idn⟩ := c
  cases occ <;> cases conn <;> rfl

/-- Witness for C6 at a concrete input: a live slot receives the frame
bytes appended in order, a disconnected slot receives nothing and is freed
by the prune pass, an empty slot is untouched. -/
theorem broadcast_all_and_only_live_witness :
    (processRTUResponse ⟨[5, 6], 0, true, 0, false, 0, 1⟩
      [⟨true, true, [9], 1⟩, ⟨true, false, [8], 2⟩, emptySlot] 50).2.1 =
      [⟨true, true, [9, 5, 6], 1⟩, ⟨true, false, [8], 2⟩, emptySlot] ∧
    pruneClients ((processRTUResponse ⟨[5, 6], 0, true, 0, false, 0, 1⟩
      [⟨true, true, [9], 1⟩, ⟨true, false, [8], 2⟩, emptySlot] 50).2.1) =
      [⟨true, true, [9, 5, 6], 1⟩, emptySlot, emptySlot] := by
  have h := broadcast_all_and_only_live ⟨[5, 6], 0, true, 0, false, 0, 1⟩
    [⟨true, true, [9], 1⟩, ⟨true, false, [8], 2⟩, emptySlot] 50 (by decide)
  constructor
  · rw [h.1]
    decide
  · rw [h.2]
    decide

/-! Helper lemmas about one `handleModbusRTU` tick. -/

theorem tick_emit (s : ProxyState) (clients : List ClientSlot)
    (incoming : List Nat) (now : Nat)
    (hC : (feedBytes s incoming now).frameInProgress = true ∧
      0 < (feedBytes s incoming now).buffer.length ∧
      (MODBUS_TIMEOUT_MS ≤ now - (feedBytes s incoming now).lastByteTime ∨
        MAX_FRAME_TIME ≤ now - (feedBytes s incoming now).frameStartTime)) :
    (handleModbusRTU s clients incoming now).emitted.isSome = true ∧
    (handleModbusRTU s clients incoming now).state.frameInProgress = false ∧
    (handleModbusRTU s clients incoming now).state.buffer = [] := by
  simp only [handleModbusRTU]
  rw [if_pos hC]
  simp only [processRTUResponse, if_pos hC.2.1]
  split
  · rw [if_neg (fun h => by simp at h)]
    exact ⟨rfl, rfl, rfl⟩
  · rw [if_neg (fun h => by simp at h)]
    exact ⟨rfl, rfl, rfl⟩

theorem tick_no_emit (s : ProxyState) (clients : List ClientSlot)
    (incoming : List Nat) (now : Nat)
    (hC : ¬((feedBytes s incoming now).frameInProgress = true ∧
      0 < (feedBytes s incoming now).buffer.length ∧
      (MODBUS_TIMEOUT_MS ≤ now - (feedBytes s incoming now).lastByteTime ∨
        MAX_FRAME_TIME ≤ now - (feedBytes s incoming now).frameStartTime))) :
    (handleModbusRTU s clients incoming now).emitted = none ∧
    ((feedBytes s incoming now).buffer = [] →
      (handleModbusRTU s clients incoming now).state.buffer = []) := by
  simp only [handleModbusRTU]
  rw [if_neg hC]
  split
  · exact ⟨rfl, fun _ => rfl⟩
  · exact ⟨rfl, fun h => h⟩

/-- Claim C1: in a tick, a frame is emitted if and only if (after draining
this tick's serial bytes) a frame is in progress, at least one byte is
buffered, and either the inter-frame silence threshold (2 ms) or the
maximum frame duration ceiling (500 ms) has been reached; with zero bytes
fed no frame is ever emitted; and emission resets the assembler state:
in-progress flag cleared and buffer emptied. -/
theorem frame_emission_iff (s : ProxyState) (clients : List ClientSlot)
    (incoming : List Nat) (now : Nat) :
    ((handleModbusRTU s clients incoming now).emitted.isSome = true ↔
      ((feedBytes s incoming now).frameInProgress = true ∧
       (feedBytes s incoming now).buffer ≠ [] ∧
       (MODBUS_TIMEOUT_MS ≤ now - (feedBytes s incoming now).lastByteTime ∨
        MAX_FRAME_TIME ≤ now - (feedBytes s incoming now).frameStartTime))) ∧
    (s.buffer = [] → incoming = [] →
      (handleModbusRTU s clients incoming now).emitted = none ∧
      (handleModbusRTU s clients incoming now).state.buffer = []) ∧
    ((handleModbusRTU s clients incoming now).emitted.isSome = true →
      (handleModbusRTU s clients incoming now).state.frameInProgress = false ∧
      (handleModbusRTU s clients incoming now).state.buffer = []) := by
  by_cases hC : (feedBytes s incoming now).frameInProgress = true ∧
      0 < (feedBytes s incoming now).buffer.length ∧
      (MODBUS_TIMEOUT_MS ≤ now - (feedBytes s incoming now).lastByteTime ∨
        MAX_FRAME_TIME ≤ now - (feedBytes s incoming now).frameStartTime)
  · have he := tick_emit s clients incoming now hC
    refine ⟨?_, fun h1 h2 => ?_, fun _ => ⟨he.2.1, he.2.2⟩⟩
    · rw [he.1]
      exact iff_of_true rfl ⟨hC.1, List.length_pos.mp hC.2.1, hC.2.2⟩
    · exfalso
      subst h2
      rw [feedBytes_nil, h1] at hC
      exact absurd hC.2.1 (by simp)
  · have hn := tick_no_emit s clients incoming now hC
    refine ⟨?_, fun h1 h2 => ⟨hn.1, ?_⟩, fun hsome => ?_⟩
    · rw [hn.1]
      exact iff_of_false (by simp)
        (fun hR => hC ⟨hR.1, List.length_pos.mpr hR.2.1, hR.2.2⟩)
    · apply hn.2
      subst h2
      rw [feedBytes_nil, h1]
    · rw [hn.1] at hsome
      simp at hsome

/-- Witness for C1: from boot, the 8-byte LUX frame fed at time 10 is not
yet emitted; the next tick at time 13 (3 ms of silence ≥ 2 ms) emits it and
resets the assembler; a tick from boot with no bytes emits nothing. -/
theorem frame_emission_iff_witness :
    (handleModbusRTU (handleModbusRTU initialState [] [1, 4, 0, 0, 0, 1, 49, 202] 10).state
      [] [] 13).emitted.isSome = true ∧
    (handleModbusRTU (handleModbusRTU initialState [] [1, 4, 0, 0, 0, 1, 49, 202] 10).state
      [] [] 13).state.buffer = [] ∧
    (handleModbusRTU initialState [] [] 0).emitted = none := by
  have h1 := (frame_emission_iff (handleModbusRTU initialState []
    [1, 4, 0, 0, 0, 1, 49, 202] 10).state [] [] 13).1
  have h2 := (frame_emission_iff (handleModbusRTU initialState []
    [1, 4, 0, 0, 0, 1, 49, 202] 10).state [] [] 13).2.2
  have h3 := (frame_emission_iff initialState [] [] 0).2.1 rfl rfl
  have hsome := h1.mpr (by decide)
  exact ⟨hsome, (h2 hsome).2, h3.1⟩

/-! Helper lemmas for idle-tick runs (no serial bytes). -/

/-- The state left behind by the missed-response timeout branch. -/
def timedOutState (s : ProxyState) : ProxyState :=
  { s with frameInProgress := false, buffer := [], waitingForTcpResponse := false }

theorem tick_no_input (s : ProxyState) (clients : List ClientSlot) (t : Nat)
    (hno : ¬(s.frameInProgress = true ∧ 0 < s.buffer.length ∧
      (MODBUS_TIMEOUT_MS ≤ t - s.lastByteTime ∨
        MAX_FRAME_TIME ≤ t - s.frameStartTime))) :
    handleModbusRTU s clients [] t =
      (if s.waitingForTcpResponse = true ∧ s.frameInProgress = true ∧
          MAX_FRAME_TIME < t - s.frameStartTime ∧ s.buffer.length = 0 then
        { state := timedOutState s, clients := clients,
          emitted := none, missed := true }
      else
        { state := s, clients := clients, emitted := none, missed := false }) := by
  simp only [handleModbusRTU, feedBytes_nil]
  rw [if_neg hno]
  rfl

theorem tick_armed_idle_early (s : ProxyState) (clients : List ClientSlot)
    (t : Nat) (hf : s.frameInProgress = true) (hb : s.buffer = [])
    (ht : t ≤ s.frameStartTime + MAX_FRAME_TIME) :
    handleModbusRTU s clients [] t =
      { state := s, clients := clients, emitted := none, missed := false } := by
  rw [tick_no_input s clients t
    (fun h => by rw [hb] at h; exact absurd h.2.1 (by simp))]
  rw [if_neg (fun h => absurd h.2.2.1 (by omega))]

theorem tick_armed_idle_late (s : ProxyState) (clients : List ClientSlot)
    (t : Nat) (hw : s.waitingForTcpResponse = true)
    (hf : s.frameInProgress = true) (hb : s.buffer = [])
    (ht : s.frameStartTime + MAX_FRAME_TIME < t) :
    handleModbusRTU s clients [] t =
      { state := timedOutState s, clients := clients,
        emitted := none, missed := true } := by
  rw [tick_no_input s clients t
    (fun h => by rw [hb] at h; exact absurd h.2.1 (by simp))]
  rw [if_pos ⟨hw, hf, by omega, by simp [hb]⟩]

theorem tick_not_in_progress (s : ProxyState) (clients : List ClientSlot)
    (t : Nat) (hf : s.frameInProgress = false) :
    handleModbusRTU s clients [] t =
      { state := s, clients := clients, emitted := none, missed := false } := by
  rw [tick_no_input s clients t
    (fun h => by rw [hf] at h; exact absurd h.1 (by simp))]
  rw [if_neg (fun h => by rw [hf] at h; exact absurd h.2.1 (by simp))]

theorem runIdleTicksFrom_cons (acc : ProxyState × Nat) (t : Nat)
    (rest : List Nat) :
    runIdleTicksFrom acc (t :: rest) =
      runIdleTicksFrom
        (let r := handleModbusRTU acc.1 [] [] t
         (r.state, acc.2 + (if r.missed then 1 else 0))) rest := rfl

theorem runIdleTicksFrom_dead (s : ProxyState) (k : Nat) (times : List Nat)
    (hf : s.frameInProgress = false) :
    runIdleTicksFrom (s, k) times = (s, k) := by
  induction times with
  | nil => rfl
  | cons t rest ih =>
    rw [runIdleTicksFrom_cons]
    show runIdleTicksFrom
      (let r := handleModbusRTU s [] [] t
       (r.state, k + (if r.missed then 1 else 0))) rest = (s, k)
    rw [tick_not_in_progress s [] t hf]
    exact ih

theorem runIdleTicksFrom_armed (s : ProxyState) (T : Nat) (k : Nat)
    (hw : s.waitingForTcpResponse = true) (hf : s.frameInProgress = true)
    (hb : s.buffer = []) (hT : s.frameStartTime = T) (times : List Nat) :
    runIdleTicksFrom (s, k) times =
      (if times.any (fun t => decide (T + MAX_FRAME_TIME < t)) then
        (timedOutState s, k + 1)
      else (s, k)) := by
  induction times generalizing k with
  | nil => rfl
  | cons t rest ih =>
    rw [runIdleTicksFrom_cons]
    show runIdleTicksFrom
      (let r := handleModbusRTU s [] [] t
       (r.state, k + (if r.missed then 1 else 0))) rest = _
    by_cases hlt : T + MAX_FRAME_TIME < t
    · rw [tick_armed_idle_late s [] t hw hf hb (by omega)]
      show runIdleTicksFrom (timedOutState s, k + 1) rest = _
      rw [runIdleTicksFrom_dead _ _ rest rfl]
      simp only [List.any_cons, decide_eq_true hlt, Bool.true_or, if_pos]
    · rw [tick_armed_idle_early s [] t hf hb (by omega)]
      show runIdleTicksFrom (s, k) rest = _
      rw [ih k]
      simp only [List.any_cons, decide_eq_false hlt, Bool.false_or]

/-- Claim C3 counterexample: arm the tracker by forwarding a request at
time 0, then tick at time 501 with no serial bytes.  The response window
(5000 ms) has not elapsed, yet the missed-response event has already fired
and the pending marker is already cleared: the transition is triggered by
MAX_FRAME_TIME = 500 ms (main.cpp line 359), not by the response window as
the claim states. -/
theorem missed_before_window_counterexample :
    501 < RESPONSE_WINDOW ∧
    (handleModbusRTU (processClientRequest initialState [1] 0).1 [] [] 501).missed = true ∧
    (handleModbusRTU (processClientRequest initialState [1] 0).1 [] [] 501).state.waitingForTcpResponse = false := by
  decide

/-- Claim C3 (amended): with the tracker armed at time T and no serial byte
arriving afterwards, the missed-response event fires on the first idle tick
past T + MAX_FRAME_TIME (500 ms) — not at the 5000 ms response window — it
fires exactly once over any run of idle ticks, and afterwards the tracker
is back to IDLE; in particular, once the response window has elapsed (an
idle tick past T + RESPONSE_WINDOW occurred) the event has fired exactly
once. -/
theorem missed_response_fires_once (s : ProxyState) (T : Nat)
    (hw : s.waitingForTcpResponse = true) (hf : s.frameInProgress = true)
    (hb : s.buffer = []) (hT : s.frameStartTime = T) (times : List Nat) :
    ((runIdleTicks s times).2 =
      if times.any (fun t => decide (T + MAX_FRAME_TIME < t)) then 1 else 0) ∧
    ((runIdleTicks s times).1.waitingForTcpResponse =
      !(times.any (fun t => decide (T + MAX_FRAME_TIME < t)))) ∧
    (times.any (fun t => decide (T + RESPONSE_WINDOW < t)) = true →
      (runIdleTicks s times).2 = 1) := by
  unfold runIdleTicks
  rw [runIdleTicksFrom_armed s T 0 hw hf hb hT times]
  by_cases h : times.any (fun t => decide (T + MAX_FRAME_TIME < t)) = true
  · simp [h, timedOutState]
  · have h' : times.any (fun t => decide (T + MAX_FRAME_TIME < t)) = false := by
      cases hx : times.any (fun t => decide (T + MAX_FRAME_TIME < t))
      · rfl
      · exact absurd hx h
    refine ⟨by simp [h'], by simp [h', hw], fun hwin => ?_⟩
    exfalso
    rcases List.any_eq_true.mp hwin with ⟨t, htmem, htd⟩
    have h5000 : T + RESPONSE_WINDOW < t := of_decide_eq_true htd
    have h500 : T + MAX_FRAME_TIME < t := by
      simp only [RESPONSE_WINDOW] at h5000
      simp only [MAX_FRAME_TIME]
      omega
    exact h (List.any_eq_true.mpr ⟨t, htmem, decide_eq_true h500⟩)

/-- Witness for the amended C3: tracker armed by forwarding a request at
time 0; idle ticks at 100, 501 and 5001 produce exactly one
missed-response event and leave the tracker IDLE. -/
theorem missed_response_fires_once_witness :
    (runIdleTicks (processClientRequest initialState [1] 0).1 [100, 501, 5001]).2 = 1 ∧
    (runIdleTicks (processClientRequest initialState [1] 0).1 [100, 501, 5001]).1.waitingForTcpResponse = false := by
  have h := missed_response_fires_once (processClientRequest initialState [1] 0).1 0
    (by decide) (by decide) (by decide) (by decide) [100, 501, 5001]
  refine ⟨?_, ?_⟩
  · rw [h.1]
    decide
  · rw [h.2.1]
    decide

end ModbusProxy
